import Mathlib

set_option maxRecDepth 4000

/-!
# Verification of the pico terminal text viewer

A shallow embedding of `src/main.c` (the pico editor) and proofs about its
key decoder, cursor movement, scrolling and rendering logic.

Modelling conventions:
* C `int` values are modelled as `Int` (values stay far from overflow).
* Text bytes (`char`) are modelled as `Char`; a row (`erow`) is a `List Char`.
* The blocking `read` of the key decoder is modelled by an explicit list of
  available input bytes; a failed `read` (no byte available within the
  timeout) corresponds to the list being exhausted.
* `exit`/`die` paths terminate the process; where a claim quantifies over
  keys, the quit key (CTRL-q) is modelled as leaving the state unchanged,
  since the C program never uses the state again on that path.
-/

/-- The `editor_key` enum of `main.c` (values start at 1000). -/
def ARROW_LEFT : Int := 1000

/-- `ARROW_RIGHT` from the `editor_key` enum. -/
def ARROW_RIGHT : Int := 1001

/-- `ARROW_UP` from the `editor_key` enum. -/
def ARROW_UP : Int := 1002

/-- `ARROW_DOWN` from the `editor_key` enum. -/
def ARROW_DOWN : Int := 1003

/-- `DEL_KEY` from the `editor_key` enum. -/
def DEL_KEY : Int := 1004

/-- `HOME_KEY` from the `editor_key` enum. -/
def HOME_KEY : Int := 1005

/-- `END_KEY` from the `editor_key` enum. -/
def END_KEY : Int := 1006

/-- `PAGE_UP` from the `editor_key` enum. -/
def PAGE_UP : Int := 1007

/-- `PAGE_DOWN` from the `editor_key` enum. -/
def PAGE_DOWN : Int := 1008

/-- The global `struct editor_config` of `main.c`.  `num_rows` is kept equal
to the length of `row` by the C code (only `append_row` touches either), so
we represent it as the derived quantity `num_rows` below rather than a
separate field.  The `orig_termios` field is terminal state irrelevant to the
claims and is omitted. -/
structure editor_config where
  cur_x : Int
  cur_y : Int
  row_offset : Int
  col_offset : Int
  terminal_rows : Int
  terminal_cols : Int
  row : List (List Char)
  deriving Repr, DecidableEq

/-- `config.num_rows`: maintained equal to the length of `config.row`. -/
def num_rows (e : editor_config) : Int := (e.row.length : Int)

/-- The C expression `row ? row->size : 0` where
`row = (y >= num_rows) ? NULL : &rows[y]`: length of the row at index `y`,
or `0` when the cursor sits past the last row. -/
def row_len (rows : List (List Char)) (y : Int) : Int :=
  if y < (rows.length : Int) then ((rows.getD y.toNat []).length : Int) else 0

/-- The cursor bounds invariant stated in the spec (section 3):
`0 <= cur_y <= num_rows` and `0 <= cur_x <=` length of the row at `cur_y`
(0 when `cur_y = num_rows`). -/
def cursor_inv (e : editor_config) : Prop :=
  0 ≤ e.cur_y ∧ e.cur_y ≤ num_rows e ∧ 0 ≤ e.cur_x ∧ e.cur_x ≤ row_len e.row e.cur_y

instance (e : editor_config) : Decidable (cursor_inv e) := by
  unfold cursor_inv; infer_instance

/-- `init_editor`: cursor at the origin, offsets zero, no rows; the terminal
dimensions are probed from the terminal (here: parameters). -/
def init_config (rows cols : Int) : editor_config :=
  { cur_x := 0, cur_y := 0, row_offset := 0, col_offset := 0,
    terminal_rows := rows, terminal_cols := cols, row := [] }

/-- `read_key` from `main.c`, on the list of available input bytes.
Returns `none` when no first byte ever arrives (the C code blocks forever in
its initial `read` loop); otherwise it mirrors the escape-sequence decoding
exactly: each subsequent `read(...) != 1` failure corresponds to the list
being exhausted and resolves to the bare escape key `27`. -/
def read_key : List Char → Option Int
  | [] => none
  | c :: rest =>
    if c = '\x1b' then
      match rest with
      | [] => some 27
      | [_] => some 27
      | s0 :: s1 :: rest2 =>
        if s0 = '[' then
          if '0' ≤ s1 ∧ s1 ≤ '9' then
            match rest2 with
            | [] => some 27
            | s2 :: _ =>
              if s2 = '~' then
                if s1 = '1' then some HOME_KEY
                else if s1 = '2' then some END_KEY
                else if s1 = '3' then some DEL_KEY
                else if s1 = '5' then some PAGE_UP
                else if s1 = '6' then some PAGE_DOWN
                else if s1 = '7' then some HOME_KEY
                else if s1 = '8' then some END_KEY
                else some 27
              else some 27
          else
            if s1 = 'A' then some ARROW_UP
            else if s1 = 'B' then some ARROW_DOWN
            else if s1 = 'C' then some ARROW_RIGHT
            else if s1 = 'D' then some ARROW_LEFT
            else if s1 = 'H' then some HOME_KEY
            else if s1 = 'F' then some END_KEY
            else some 27
        else if s0 = 'O' then
          if s1 = 'H' then some HOME_KEY
          else if s1 = 'F' then some END_KEY
          else some 27
        else some 27
    else some (c.toNat : Int)

example : read_key ['\x1b', '[', '3', '~'] = some DEL_KEY := by decide
example : read_key ['\x1b', '[', 'A'] = some ARROW_UP := by decide
example : read_key ['\x1b', 'O', 'H'] = some HOME_KEY := by decide
example : read_key ['\x1b'] = some 27 := by decide
example : read_key ['\x1b', '[', '4', '~'] = some 27 := by decide
example : read_key ['q'] = some 113 := by decide

/-- The `switch (key)` statement of `move_cursor` in `main.c`.  The local
`row` pointer (`NULL` when `cur_y >= num_rows`) and the `row->size` accesses
are expressed through `row_len`; in the `ARROW_LEFT` wrap branch the C code
indexes `config.row[config.cur_y]` directly after the decrement, which is
`getD` below. -/
def move_step (e : editor_config) (key : Int) : editor_config :=
  if key = ARROW_LEFT then
    if 0 < e.cur_x then { e with cur_x := e.cur_x - 1 }
    else if 0 < e.cur_y then
      { e with cur_y := e.cur_y - 1,
               cur_x := ((e.row.getD (e.cur_y - 1).toNat []).length : Int) }
    else e
  else if key = ARROW_RIGHT then
    if e.cur_y < num_rows e then
      if e.cur_x < row_len e.row e.cur_y then { e with cur_x := e.cur_x + 1 }
      else if e.cur_x = row_len e.row e.cur_y then
        { e with cur_y := e.cur_y + 1, cur_x := 0 }
      else e
    else e
  else if key = ARROW_UP then
    if 0 < e.cur_y then { e with cur_y := e.cur_y - 1 } else e
  else if key = ARROW_DOWN then
    if e.cur_y < num_rows e then { e with cur_y := e.cur_y + 1 } else e
  else e

/-- The tail of `move_cursor` in `main.c`: re-read the row at the (possibly
new) `cur_y` and snap `cur_x` back to the row length if it overshoots. -/
def clamp_x (e : editor_config) : editor_config :=
  if row_len e.row e.cur_y < e.cur_x then { e with cur_x := row_len e.row e.cur_y } else e

/-- `move_cursor` from `main.c`: one directional step followed by the
column clamp. -/
def move_cursor (e : editor_config) (key : Int) : editor_config :=
  clamp_x (move_step e key)

/-- The `while (times--) move_cursor(...)` loop in the PAGE_UP / PAGE_DOWN
case of `process_key_press`. -/
def iterate_move (key : Int) : Nat → editor_config → editor_config
  | 0, e => e
  | n + 1, e => iterate_move key n (move_cursor e key)

/-- `process_key_press` from `main.c`, as a function of the decoded key.
CTRL-q (`CTRL_KEY('q') = 17`) clears the screen and exits the process; the
state is never used again on that path, so it is modelled as the identity.
`times = terminal_rows` iterations of the page loop: for a negative
`terminal_rows` the C loop would never terminate, so the model iterates
`terminal_rows.toNat` times. -/
def process_key_press (e : editor_config) (c : Int) : editor_config :=
  if c = 17 then e
  else if c = HOME_KEY then { e with cur_x := 0 }
  else if c = END_KEY then { e with cur_x := e.terminal_cols - 1 }
  else if c = PAGE_UP then iterate_move ARROW_UP e.terminal_rows.toNat e
  else if c = PAGE_DOWN then iterate_move ARROW_DOWN e.terminal_rows.toNat e
  else if c = ARROW_UP ∨ c = ARROW_DOWN ∨ c = ARROW_LEFT ∨ c = ARROW_RIGHT then
    move_cursor e c
  else e

/-- `scroll` from `main.c`: four sequential boundary adjustments of the
scroll offsets. -/
def scroll (e : editor_config) : editor_config :=
  let e1 := if e.cur_y < e.row_offset then { e with row_offset := e.cur_y } else e
  let e2 := if e1.row_offset + e1.terminal_rows ≤ e1.cur_y then
              { e1 with row_offset := e1.cur_y - e1.terminal_rows + 1 } else e1
  let e3 := if e2.cur_x < e2.col_offset then { e2 with col_offset := e2.cur_x } else e2
  if e3.col_offset + e3.terminal_cols ≤ e3.cur_x then
    { e3 with col_offset := e3.cur_x - e3.terminal_cols + 1 } else e3

/-- A concrete state used to instantiate the theorems with hypotheses:
two rows "ab" and "c", cursor at the origin, a 24×80 terminal. -/
def sample_config : editor_config :=
  { cur_x := 0, cur_y := 0, row_offset := 0, col_offset := 0,
    terminal_rows := 24, terminal_cols := 80, row := [['a', 'b'], ['c']] }

example : cursor_inv sample_config := by decide
example : (move_cursor sample_config ARROW_RIGHT).cur_x = 1 := by decide
example : (move_cursor (init_config 24 80) ARROW_RIGHT).cur_x = 0 := by decide
example : (process_key_press sample_config PAGE_DOWN).cur_y = 2 := by decide

/-- The sequence of lines `getline` hands to the loop body of `editor_open`:
each line runs up to and including its `'\n'`; a final chunk without a
terminating `'\n'` is still a line; at end of file `getline` returns -1, so
a file ending in `'\n'` produces no trailing empty line. -/
def split_lines : List Char → List (List Char)
  | [] => []
  | c :: rest =>
    if c = '\n' then ['\n'] :: split_lines rest
    else
      match split_lines rest with
      | [] => [[c]]
      | l :: ls => (c :: l) :: ls

/-- The stripping loop of `editor_open`:
`while (line_len > 0 && (line[line_len-1] == '\n' || line[line_len-1] == '\r')) line_len--;`
removes every trailing `'\n'` or `'\r'` byte, not just one terminator. -/
def strip_line_end (l : List Char) : List Char :=
  (l.reverse.dropWhile (fun c => c == '\n' || c == '\r')).reverse

/-- `append_row` from `main.c`: copies `len` bytes into a fresh row appended
at index `num_rows`, then increments `num_rows`. -/
def append_row (e : editor_config) (s : List Char) : editor_config :=
  { e with row := e.row ++ [s] }

/-- `editor_open` from `main.c`: for each line produced by `getline`, strip
the trailing `'\n'`/`'\r'` bytes and append the result as a row. -/
def editor_open (e : editor_config) (file : List Char) : editor_config :=
  (split_lines file).foldl (fun acc l => append_row acc (strip_line_end l)) e

/-- Modelled from the spec (claim C7's phrasing, not from the code): strip
exactly one trailing `"\n"` or `"\r\n"` line terminator from a line and
leave every other byte alone. -/
def spec_strip_terminator (l : List Char) : List Char :=
  if l.getLast? = some '\n' then
    if l.dropLast.getLast? = some '\r' then l.dropLast.dropLast else l.dropLast
  else l

example : split_lines "ab\ncd".toList = ["ab\n".toList, "cd".toList] := by decide
example : split_lines "ab\n".toList = ["ab\n".toList] := by decide
example : strip_line_end "ab\r\r\n".toList = "ab".toList := by decide
example : spec_strip_terminator "ab\r\r\n".toList = "ab\r".toList := by decide
example : (editor_open (init_config 24 80) "a\nb".toList).row = [['a'], ['b']] := by decide

/-- `PICO_VERSION` from `main.c`. -/
def pico_version : String := "0.0.5"

/-- The welcome banner built by `snprintf` in `draw_rows` (its length, 28,
is well below the 80-byte buffer, so `snprintf` does not truncate it). -/
def welcome_message : String := "Pico editor -- version " ++ pico_version

/-- The bytes one iteration of the `draw_rows` loop appends for screen row
`y`, before the `"\x1b[K"` erase and the `"\r\n"` separator.  Note the C
code clamps the banner length against `terminal_rows` (the height), and
`padding` uses C truncating division. -/
def render_row (e : editor_config) (y : Int) : List Char :=
  let file_row := y + e.row_offset
  if num_rows e ≤ file_row then
    if e.row.length = 0 ∧ y = Int.tdiv e.terminal_rows 3 then
      let welcome := welcome_message.toList
      let welcome_len : Int :=
        if e.terminal_rows < (welcome.length : Int) then e.terminal_rows
        else (welcome.length : Int)
      let padding := Int.tdiv (e.terminal_cols - welcome_len) 2
      (if padding ≠ 0 then '~' :: List.replicate (padding - 1).toNat ' '
       else List.replicate padding.toNat ' ') ++ welcome.take welcome_len.toNat
    else ['~']
  else
    let r := e.row.getD file_row.toNat []
    let len : Int := (r.length : Int) - e.col_offset
    let len : Int := if len < 0 then 0 else len
    let len : Int := if e.terminal_cols < len then e.terminal_cols else len
    (r.drop e.col_offset.toNat).take len.toNat

/-- `draw_rows` from `main.c`: the full frame body appended to the screen
buffer — each screen row's content, an erase-to-end-of-line escape, and a
`"\r\n"` separator after every row but the last. -/
def draw_rows (e : editor_config) : List Char :=
  (List.range e.terminal_rows.toNat).foldl
    (fun ab y =>
      ab ++ render_row e (y : Int) ++ "\x1b[K".toList ++
        (if (y : Int) < e.terminal_rows - 1 then "\r\n".toList else []))
    []

/-- One placeholder screen line of the frame: `~`, erase escape, separator. -/
def tilde_line : List Char := "~\x1b[K\r\n".toList

example : render_row (init_config 24 80) 0 = ['~'] := by decide
example : render_row (init_config 24 80) 8 =
    '~' :: List.replicate 27 ' ' ++ "Pico editor -- version 0".toList := by decide

/-! ## Helper lemmas -/

theorem row_len_nonneg (rows : List (List Char)) (y : Int) : 0 ≤ row_len rows y := by
  unfold row_len; split <;> simp

theorem clamp_x_cur_y (e : editor_config) : (clamp_x e).cur_y = e.cur_y := by
  unfold clamp_x; split <;> rfl

theorem clamp_x_row (e : editor_config) : (clamp_x e).row = e.row := by
  unfold clamp_x; split <;> rfl

theorem move_step_row (e : editor_config) (k : Int) : (move_step e k).row = e.row := by
  unfold move_step; split_ifs <;> rfl

theorem move_cursor_row (e : editor_config) (k : Int) : (move_cursor e k).row = e.row := by
  unfold move_cursor; rw [clamp_x_row, move_step_row]

theorem num_rows_move_step (e : editor_config) (k : Int) :
    num_rows (move_step e k) = num_rows e := by
  unfold num_rows; rw [move_step_row]

theorem clamp_x_inv (e : editor_config) (h1 : 0 ≤ e.cur_y) (h2 : e.cur_y ≤ num_rows e)
    (h3 : 0 ≤ e.cur_x) : cursor_inv (clamp_x e) := by
  have hn := row_len_nonneg e.row e.cur_y
  unfold clamp_x cursor_inv num_rows at *
  split <;> simp_all

theorem move_step_bounds (e : editor_config) (k : Int) (h : cursor_inv e) :
    0 ≤ (move_step e k).cur_y ∧ (move_step e k).cur_y ≤ num_rows e ∧
      0 ≤ (move_step e k).cur_x := by
  obtain ⟨h1, h2, h3, h4⟩ := h
  have hn := row_len_nonneg e.row e.cur_y
  unfold move_step num_rows at *
  split_ifs <;> simp_all <;> omega

theorem move_cursor_inv (e : editor_config) (k : Int) (h : cursor_inv e) :
    cursor_inv (move_cursor e k) := by
  obtain ⟨hy0, hy1, hx0⟩ := move_step_bounds e k h
  exact clamp_x_inv (move_step e k) hy0 (by rw [num_rows_move_step]; exact hy1) hx0

theorem iterate_move_inv (k : Int) (n : Nat) (e : editor_config) (h : cursor_inv e) :
    cursor_inv (iterate_move k n e) := by
  induction n generalizing e with
  | zero => exact h
  | succ m ih => exact ih (move_cursor e k) (move_cursor_inv e k h)

theorem num_rows_move_cursor (e : editor_config) (k : Int) :
    num_rows (move_cursor e k) = num_rows e := by
  unfold num_rows; rw [move_cursor_row]

theorem move_step_left (e : editor_config) :
    move_step e ARROW_LEFT =
      if 0 < e.cur_x then { e with cur_x := e.cur_x - 1 }
      else if 0 < e.cur_y then
        { e with cur_y := e.cur_y - 1,
                 cur_x := ((e.row.getD (e.cur_y - 1).toNat []).length : Int) }
      else e := rfl

theorem move_step_right (e : editor_config) :
    move_step e ARROW_RIGHT =
      if e.cur_y < num_rows e then
        if e.cur_x < row_len e.row e.cur_y then { e with cur_x := e.cur_x + 1 }
        else if e.cur_x = row_len e.row e.cur_y then
          { e with cur_y := e.cur_y + 1, cur_x := 0 }
        else e
      else e := rfl

theorem move_step_up (e : editor_config) :
    move_step e ARROW_UP = if 0 < e.cur_y then { e with cur_y := e.cur_y - 1 } else e := rfl

theorem move_step_down (e : editor_config) :
    move_step e ARROW_DOWN =
      if e.cur_y < num_rows e then { e with cur_y := e.cur_y + 1 } else e := rfl

theorem mc_left_wrap (e : editor_config) (h : cursor_inv e) (hx : e.cur_x = 0)
    (hy : 0 < e.cur_y) :
    move_cursor e ARROW_LEFT =
      { e with cur_y := e.cur_y - 1, cur_x := row_len e.row (e.cur_y - 1) } := by
  obtain ⟨h1, h2, h3, h4⟩ := h
  have hlt : e.cur_y - 1 < (e.row.length : Int) := by unfold num_rows at h2; omega
  have hrl : row_len e.row (e.cur_y - 1) =
      ((e.row.getD (e.cur_y - 1).toNat []).length : Int) := by
    unfold row_len; rw [if_pos hlt]
  unfold move_cursor
  rw [move_step_left, if_neg (by omega), if_pos hy]
  unfold clamp_x
  dsimp only
  rw [hrl, if_neg (lt_irrefl _)]

theorem mc_left_origin (e : editor_config) (h : cursor_inv e) (hx : e.cur_x = 0)
    (hy : e.cur_y = 0) : move_cursor e ARROW_LEFT = e := by
  obtain ⟨h1, h2, h3, h4⟩ := h
  unfold move_cursor
  rw [move_step_left, if_neg (by omega), if_neg (by omega)]
  unfold clamp_x
  rw [if_neg (by omega)]

theorem mc_right_wrap (e : editor_config) (_h : cursor_inv e)
    (hx : e.cur_x = row_len e.row e.cur_y) (hy : e.cur_y < num_rows e) :
    move_cursor e ARROW_RIGHT = { e with cur_y := e.cur_y + 1, cur_x := 0 } := by
  unfold move_cursor
  rw [move_step_right, if_pos hy, if_neg (by omega), if_pos hx]
  unfold clamp_x
  dsimp only
  rw [if_neg (not_lt.mpr (row_len_nonneg e.row (e.cur_y + 1)))]

theorem mc_right_eof (e : editor_config) (h : cursor_inv e) (hy : e.cur_y = num_rows e) :
    move_cursor e ARROW_RIGHT = e := by
  obtain ⟨h1, h2, h3, h4⟩ := h
  unfold move_cursor
  rw [move_step_right, if_neg (by omega)]
  unfold clamp_x
  rw [if_neg (by omega)]

theorem mc_up_cur_y (e : editor_config) (h : cursor_inv e) :
    (move_cursor e ARROW_UP).cur_y = if e.cur_y = 0 then 0 else e.cur_y - 1 := by
  obtain ⟨h1, h2, h3, h4⟩ := h
  unfold move_cursor
  rw [clamp_x_cur_y, move_step_up]
  split_ifs <;> (try dsimp only) <;> omega

theorem mc_down_cur_y (e : editor_config) (h : cursor_inv e) :
    (move_cursor e ARROW_DOWN).cur_y =
      if e.cur_y = num_rows e then e.cur_y else e.cur_y + 1 := by
  obtain ⟨h1, h2, h3, h4⟩ := h
  unfold move_cursor
  rw [clamp_x_cur_y, move_step_down]
  split_ifs <;> (try dsimp only) <;> omega

/-! ## Claim theorems -/

/-- C2: `move_cursor` edge policies, for every state satisfying the cursor
invariants: LEFT at column 0 with `cur_y > 0` wraps to the end of the
previous row and is a no-op at (0,0); RIGHT at the end of a row with
`cur_y < num_rows` wraps to column 0 of the next row and is a no-op at
`cur_y = num_rows`; UP decrements `cur_y` unless it is 0; DOWN increments
`cur_y` unless it equals `num_rows`; and after every move the column lies in
`[0, length of the row at the new cur_y]` (0 past the last row). -/
theorem move_cursor_edge_policies :
    (∀ e, cursor_inv e → e.cur_x = 0 → 0 < e.cur_y →
      move_cursor e ARROW_LEFT =
        { e with cur_y := e.cur_y - 1, cur_x := row_len e.row (e.cur_y - 1) }) ∧
    (∀ e, cursor_inv e → e.cur_x = 0 → e.cur_y = 0 → move_cursor e ARROW_LEFT = e) ∧
    (∀ e, cursor_inv e → e.cur_x = row_len e.row e.cur_y → e.cur_y < num_rows e →
      move_cursor e ARROW_RIGHT = { e with cur_y := e.cur_y + 1, cur_x := 0 }) ∧
    (∀ e, cursor_inv e → e.cur_y = num_rows e → move_cursor e ARROW_RIGHT = e) ∧
    (∀ e, cursor_inv e →
      (move_cursor e ARROW_UP).cur_y = if e.cur_y = 0 then 0 else e.cur_y - 1) ∧
    (∀ e, cursor_inv e → (move_cursor e ARROW_DOWN).cur_y =
      if e.cur_y = num_rows e then e.cur_y else e.cur_y + 1) ∧
    (∀ e k, cursor_inv e → 0 ≤ (move_cursor e k).cur_x ∧
      (move_cursor e k).cur_x ≤ row_len (move_cursor e k).row (move_cursor e k).cur_y) :=
  ⟨mc_left_wrap, mc_left_origin, mc_right_wrap, mc_right_eof, mc_up_cur_y, mc_down_cur_y,
   fun e k h => (move_cursor_inv e k h).2.2⟩

/-- Witness for C2 at a concrete state: LEFT at the origin is a no-op. -/
theorem move_cursor_edge_policies_witness :
    move_cursor sample_config ARROW_LEFT = sample_config :=
  move_cursor_edge_policies.2.1 sample_config (by decide) rfl rfl

/-- C5: RIGHT at the last column of a non-final row followed by LEFT
restores the original `cur_y` and `cur_x`; LEFT is a no-op at the very first
position of the file, and RIGHT is a no-op at the very last position
(`cur_y = num_rows`). -/
theorem right_left_round_trip :
    (∀ e, cursor_inv e → e.cur_y < num_rows e → e.cur_x = row_len e.row e.cur_y →
      (move_cursor (move_cursor e ARROW_RIGHT) ARROW_LEFT).cur_y = e.cur_y ∧
      (move_cursor (move_cursor e ARROW_RIGHT) ARROW_LEFT).cur_x = e.cur_x) ∧
    (∀ e, cursor_inv e → e.cur_x = 0 → e.cur_y = 0 → move_cursor e ARROW_LEFT = e) ∧
    (∀ e, cursor_inv e → e.cur_y = num_rows e → move_cursor e ARROW_RIGHT = e) := by
  refine ⟨?_, mc_left_origin, mc_right_eof⟩
  intro e h hy hx
  obtain ⟨h1, h2, h3, h4⟩ := h
  rw [mc_right_wrap e ⟨h1, h2, h3, h4⟩ hx hy]
  have hinv1 : cursor_inv { e with cur_y := e.cur_y + 1, cur_x := 0 } := by
    refine ⟨by dsimp only; omega, ?_, le_refl 0, row_len_nonneg _ _⟩
    unfold num_rows at *
    dsimp only
    omega
  rw [mc_left_wrap _ hinv1 rfl (by dsimp only; omega)]
  dsimp only
  have h11 : e.cur_y + 1 - 1 = e.cur_y := by omega
  rw [h11]
  exact ⟨rfl, hx.symm⟩

/-- Witness for C5 at a concrete state: cursor at the end of row 0. -/
theorem right_left_round_trip_witness :
    (move_cursor (move_cursor { sample_config with cur_x := 2 } ARROW_RIGHT)
        ARROW_LEFT).cur_y = ({ sample_config with cur_x := 2 } : editor_config).cur_y ∧
    (move_cursor (move_cursor { sample_config with cur_x := 2 } ARROW_RIGHT)
        ARROW_LEFT).cur_x = ({ sample_config with cur_x := 2 } : editor_config).cur_x :=
  right_left_round_trip.1 { sample_config with cur_x := 2 } (by decide) (by decide)
    (by decide)

/-- C3 counterexample: from the empty initial state on a 24×80 terminal —
which satisfies the cursor invariant — processing END sets
`cur_x = terminal_cols - 1 = 79`, which exceeds the length (0) of the
current row, so the invariant does not survive the END key. -/
theorem end_key_breaks_cursor_invariant :
    cursor_inv (init_config 24 80) ∧
      ¬ cursor_inv (process_key_press (init_config 24 80) END_KEY) := by decide

/-- C3 (amended): the cursor bounds invariant holds initially and is
preserved by every logical key except END; END still preserves the
`0 ≤ cur_y ≤ num_rows` half (it only writes `cur_x := terminal_cols - 1`,
which can exceed the current row length). -/
theorem cursor_invariant_preservation :
    (∀ rows cols : Int, cursor_inv (init_config rows cols)) ∧
    (∀ e c, cursor_inv e → c ≠ END_KEY → cursor_inv (process_key_press e c)) ∧
    (∀ e, cursor_inv e →
      0 ≤ (process_key_press e END_KEY).cur_y ∧
      (process_key_press e END_KEY).cur_y ≤ num_rows (process_key_press e END_KEY)) := by
  refine ⟨?_, ?_, ?_⟩
  · intro rows cols
    exact ⟨le_refl 0, le_refl 0, le_refl 0, row_len_nonneg _ _⟩
  · intro e c h hne
    unfold process_key_press
    split_ifs
    · exact h
    · obtain ⟨h1, h2, h3, h4⟩ := h
      exact ⟨h1, h2, le_refl 0, row_len_nonneg _ _⟩
    · exact iterate_move_inv ARROW_UP _ e h
    · exact iterate_move_inv ARROW_DOWN _ e h
    · exact move_cursor_inv e c h
    · exact h
  · intro e h
    obtain ⟨h1, h2, _, _⟩ := h
    unfold process_key_press
    rw [if_neg (by decide), if_neg (by decide), if_pos rfl]
    exact ⟨h1, h2⟩

/-- Witness for C3 (amended) at a concrete state and key. -/
theorem cursor_invariant_preservation_witness :
    cursor_inv (process_key_press sample_config ARROW_DOWN) :=
  cursor_invariant_preservation.2.1 sample_config ARROW_DOWN (by decide) (by decide)

/-- C4: after `scroll()` the cursor is inside the viewport: its row lies in
`[row_offset, row_offset + terminal_rows)` and its column in
`[col_offset, col_offset + terminal_cols)`, for any state with a valid
cursor and positive terminal dimensions. -/
theorem scroll_keeps_cursor_visible (e : editor_config) (_h : cursor_inv e)
    (hr : 0 < e.terminal_rows) (hc : 0 < e.terminal_cols) :
    (scroll e).row_offset ≤ (scroll e).cur_y ∧
    (scroll e).cur_y < (scroll e).row_offset + (scroll e).terminal_rows ∧
    (scroll e).col_offset ≤ (scroll e).cur_x ∧
    (scroll e).cur_x < (scroll e).col_offset + (scroll e).terminal_cols := by
  unfold scroll
  dsimp only
  split_ifs <;> simp_all <;> omega

/-- Witness for C4 at a concrete state. -/
theorem scroll_keeps_cursor_visible_witness :
    (scroll sample_config).row_offset ≤ (scroll sample_config).cur_y ∧
    (scroll sample_config).cur_y <
      (scroll sample_config).row_offset + (scroll sample_config).terminal_rows ∧
    (scroll sample_config).col_offset ≤ (scroll sample_config).cur_x ∧
    (scroll sample_config).cur_x <
      (scroll sample_config).col_offset + (scroll sample_config).terminal_cols :=
  scroll_keeps_cursor_visible sample_config (by decide) (by decide) (by decide)

theorem move_down_cur_y_le (e : editor_config) :
    (move_cursor e ARROW_DOWN).cur_y ≤ e.cur_y + 1 ∧
    (e.cur_y ≤ num_rows e → (move_cursor e ARROW_DOWN).cur_y ≤ num_rows e) := by
  unfold move_cursor
  rw [clamp_x_cur_y, move_step_down]
  split_ifs <;> (try dsimp only) <;> omega

theorem iterate_down_bounds (n : Nat) (e : editor_config) (hy : e.cur_y ≤ num_rows e) :
    (iterate_move ARROW_DOWN n e).cur_y ≤ e.cur_y + (n : Int) ∧
    (iterate_move ARROW_DOWN n e).cur_y ≤ num_rows e := by
  induction n generalizing e with
  | zero => exact ⟨by simp [iterate_move], by simpa [iterate_move] using hy⟩
  | succ m ih =>
    obtain ⟨hle, hnum⟩ := move_down_cur_y_le e
    have hrows := num_rows_move_cursor e ARROW_DOWN
    obtain ⟨ih1, ih2⟩ := ih (move_cursor e ARROW_DOWN) (by omega)
    refine ⟨?_, by simpa [iterate_move, hrows] using ih2⟩
    have : iterate_move ARROW_DOWN (m + 1) e =
        iterate_move ARROW_DOWN m (move_cursor e ARROW_DOWN) := rfl
    rw [this]
    push_cast
    omega

/-- C6: one PAGE_DOWN key (ARROW_DOWN applied `terminal_rows` times)
increases `cur_y` by at most `terminal_rows`, and the result never exceeds
`num_rows`.  (The C loop `while (times--)` requires a nonnegative
`terminal_rows` to terminate.) -/
theorem page_down_bounded (e : editor_config) (h : cursor_inv e)
    (hr : 0 ≤ e.terminal_rows) :
    (process_key_press e PAGE_DOWN).cur_y ≤ e.cur_y + e.terminal_rows ∧
    (process_key_press e PAGE_DOWN).cur_y ≤ num_rows e := by
  obtain ⟨h1, h2, h3, h4⟩ := h
  unfold process_key_press
  rw [if_neg (by decide), if_neg (by decide), if_neg (by decide), if_neg (by decide),
    if_pos rfl]
  obtain ⟨b1, b2⟩ := iterate_down_bounds e.terminal_rows.toNat e h2
  have hcast : ((e.terminal_rows.toNat : Int)) = e.terminal_rows := Int.toNat_of_nonneg hr
  omega

/-- Witness for C6 at a concrete state. -/
theorem page_down_bounded_witness :
    (process_key_press sample_config PAGE_DOWN).cur_y ≤
      sample_config.cur_y + sample_config.terminal_rows ∧
    (process_key_press sample_config PAGE_DOWN).cur_y ≤ num_rows sample_config :=
  page_down_bounded sample_config (by decide) (by decide)

/-- C9: `scroll` writes only the scroll offsets — the cursor, the terminal
dimensions and the row store are untouched (and with them `num_rows`). -/
theorem scroll_only_moves_offsets (e : editor_config) :
    (scroll e).cur_x = e.cur_x ∧ (scroll e).cur_y = e.cur_y ∧
    (scroll e).terminal_rows = e.terminal_rows ∧
    (scroll e).terminal_cols = e.terminal_cols ∧
    (scroll e).row = e.row := by
  unfold scroll
  dsimp only
  split_ifs <;> simp

/-- C1 counterexample: the code resolves `ESC [ 4 ~` to the bare escape key
(27), not to END as the claim's "d=2,4→END" requires — the numeric switch
in `read_key` has no `case '4'`. -/
theorem esc_4_tilde_is_bare_escape :
    read_key ['\x1b', '[', '4', '~'] = some 27 ∧ (27 : Int) ≠ END_KEY := by decide

/-- C1 (amended): the key decoder's complete mapping, for every input byte
stream: `ESC [` + letter maps A/B/C/D/H/F to the arrow/HOME/END keys;
`ESC [` + digit + `~` maps 1,7→HOME, 2,8→END, 3→DELETE, 5→PAGE_UP,
6→PAGE_DOWN, while digits 0, 4 and 9 are unrecognized and give the bare
escape key; `ESC O` maps H→HOME, F→END; a lone ESC, an ESC followed by a
single byte, or any unrecognized sequence gives the bare escape key (27);
any first byte other than ESC is returned as itself. -/
theorem read_key_decoding : ∀ rest : List Char,
    read_key ('\x1b' :: '[' :: 'A' :: rest) = some ARROW_UP ∧
    read_key ('\x1b' :: '[' :: 'B' :: rest) = some ARROW_DOWN ∧
    read_key ('\x1b' :: '[' :: 'C' :: rest) = some ARROW_RIGHT ∧
    read_key ('\x1b' :: '[' :: 'D' :: rest) = some ARROW_LEFT ∧
    read_key ('\x1b' :: '[' :: 'H' :: rest) = some HOME_KEY ∧
    read_key ('\x1b' :: '[' :: 'F' :: rest) = some END_KEY ∧
    read_key ('\x1b' :: '[' :: '1' :: '~' :: rest) = some HOME_KEY ∧
    read_key ('\x1b' :: '[' :: '2' :: '~' :: rest) = some END_KEY ∧
    read_key ('\x1b' :: '[' :: '3' :: '~' :: rest) = some DEL_KEY ∧
    read_key ('\x1b' :: '[' :: '5' :: '~' :: rest) = some PAGE_UP ∧
    read_key ('\x1b' :: '[' :: '6' :: '~' :: rest) = some PAGE_DOWN ∧
    read_key ('\x1b' :: '[' :: '7' :: '~' :: rest) = some HOME_KEY ∧
    read_key ('\x1b' :: '[' :: '8' :: '~' :: rest) = some END_KEY ∧
    read_key ('\x1b' :: '[' :: '0' :: '~' :: rest) = some 27 ∧
    read_key ('\x1b' :: '[' :: '4' :: '~' :: rest) = some 27 ∧
    read_key ('\x1b' :: '[' :: '9' :: '~' :: rest) = some 27 ∧
    read_key ('\x1b' :: 'O' :: 'H' :: rest) = some HOME_KEY ∧
    read_key ('\x1b' :: 'O' :: 'F' :: rest) = some END_KEY ∧
    read_key ['\x1b'] = some 27 ∧
    (∀ b : Char, read_key ['\x1b', b] = some 27) ∧
    (∀ s0 s1 : Char, s0 ≠ '[' → s0 ≠ 'O' →
      read_key ('\x1b' :: s0 :: s1 :: rest) = some 27) ∧
    (∀ s1 : Char, ¬('0' ≤ s1 ∧ s1 ≤ '9') → s1 ≠ 'A' → s1 ≠ 'B' → s1 ≠ 'C' →
      s1 ≠ 'D' → s1 ≠ 'H' → s1 ≠ 'F' →
      read_key ('\x1b' :: '[' :: s1 :: rest) = some 27) ∧
    (∀ d : Char, '0' ≤ d → d ≤ '9' → read_key ['\x1b', '[', d] = some 27) ∧
    (∀ d s2 : Char, '0' ≤ d → d ≤ '9' → s2 ≠ '~' →
      read_key ('\x1b' :: '[' :: d :: s2 :: rest) = some 27) ∧
    (∀ s1 : Char, s1 ≠ 'H' → s1 ≠ 'F' →
      read_key ('\x1b' :: 'O' :: s1 :: rest) = some 27) ∧
    (∀ b : Char, b ≠ '\x1b' → read_key (b :: rest) = some (b.toNat : Int)) ∧
    read_key ([] : List Char) = none := by
  intro rest
  refine ⟨rfl, rfl, rfl, rfl, rfl, rfl, rfl, rfl, rfl, rfl, rfl, rfl, rfl, rfl, rfl, rfl,
    rfl, rfl, rfl, fun b => rfl, ?_, ?_, ?_, ?_, ?_, ?_, rfl⟩
  · intro s0 s1 h1 h2
    simp [read_key, h1, h2]
  · intro s1 hd hA hB hC hD hH hF
    simp [read_key, hd, hA, hB, hC, hD, hH, hF]
  · intro d h0 h9
    simp [read_key, h0, h9]
  · intro d s2 h0 h9 hs
    simp [read_key, h0, h9, hs]
  · intro s1 hH hF
    simp [read_key, hH, hF]
  · intro b hb
    simp [read_key, hb]

/-- Witness for C1 (amended): a non-escape first byte is returned as
itself. -/
theorem read_key_decoding_witness : read_key ['q'] = some 113 := by
  obtain ⟨-, -, -, -, -, -, -, -, -, -, -, -, -, -, -, -, -, -, -, -, -, -, -, -, -,
    hplain, -⟩ := read_key_decoding []
  exact hplain 'q' (by decide)

theorem editor_open_fold_rows (e : editor_config) (ls : List (List Char)) :
    (ls.foldl (fun acc l => append_row acc (strip_line_end l)) e).row =
      e.row ++ ls.map strip_line_end := by
  induction ls generalizing e with
  | nil => simp
  | cons l ls ih =>
    rw [List.foldl_cons, ih]
    simp [append_row]

/-- C7 counterexample: a file consisting of the single line `"a\r"` (no
final newline).  `editor_open` strips the trailing `'\r'` even though it is
not part of a `\n`/`\r\n` terminator, producing row `"a"` where the claim
requires the row to equal the line `"a\r"` unaltered. -/
theorem editor_open_strips_lone_cr :
    (editor_open (init_config 24 80) ['a', '\r']).row = [['a']] ∧
    (split_lines ['a', '\r']).map spec_strip_terminator = [['a', '\r']] ∧
    (editor_open (init_config 24 80) ['a', '\r']).row ≠
      (split_lines ['a', '\r']).map spec_strip_terminator := by decide

/-- C7 (amended): loading a file with N lines produces exactly N rows in
file order, where each row equals the corresponding line with **every**
trailing `'\n'` and `'\r'` byte stripped (not just one `\n`/`\r\n`
terminator) and no other bytes altered. -/
theorem editor_open_loads_lines (rows cols : Int) (file : List Char) :
    (editor_open (init_config rows cols) file).row =
      (split_lines file).map strip_line_end ∧
    num_rows (editor_open (init_config rows cols) file) =
      ((split_lines file).length : Int) := by
  constructor
  · unfold editor_open
    rw [editor_open_fold_rows]
    simp [init_config]
  · unfold num_rows editor_open
    rw [editor_open_fold_rows]
    simp [init_config]

/-- C8 (the code evaluated at the failing configuration): rendering the
empty row store on a 24×80 terminal puts the banner line on screen row 8
(= 24/3) and `'~'` on every other row, but the banner is truncated to
`terminal_rows = 24` bytes — `"Pico editor -- version 0"` — because
`draw_rows` clamps the 28-byte banner against the terminal height instead
of its width, so the full version banner never appears in the frame. -/
theorem draw_rows_empty_24_80 :
    draw_rows (init_config 24 80) =
      (List.replicate 8 tilde_line).flatten ++
        ('~' :: List.replicate 27 ' ' ++ "Pico editor -- version 0".toList ++
          "\x1b[K\r\n".toList) ++
      (List.replicate 14 tilde_line).flatten ++ "~\x1b[K".toList ∧
    "Pico editor -- version 0".toList = welcome_message.toList.take 24 ∧
    welcome_message.toList.length = 28 := by decide

/-- C10: HOME sets `cur_x` to 0 and END sets `cur_x` to
`terminal_cols - 1` (the viewport width, not the row length); nothing else
in the state changes. -/
theorem home_end_key_effect (e : editor_config) :
    process_key_press e HOME_KEY = { e with cur_x := 0 } ∧
    process_key_press e END_KEY = { e with cur_x := e.terminal_cols - 1 } :=
  ⟨rfl, rfl⟩
